import Mathlib

/-!
Verification of the session store and result-rendering logic of the
Escape-Da-Vinci patient-case dashboard.

The store (zustand `useAppStore`) is embedded as a Lean structure `AppState`
with one Lean function per mutator; loosely typed JavaScript payloads are
embedded as the inductive `JValue`, with JS truthiness, `||`, member access
and array coercions as explicit functions.  The rendering logic of
`ResultsPanel` (completed-result filtering, per-agent section bodies) is
embedded as pure functions from payloads to the displayed data.
-/

/-- Loosely typed JavaScript value, as received from the analysis API. -/
inductive JValue where
  | undefined : JValue
  | null : JValue
  | bool (b : Bool) : JValue
  | num (q : ℚ) : JValue
  | str (s : String) : JValue
  | arr (xs : List JValue) : JValue
  | obj (fields : List (String × JValue)) : JValue

/-- JavaScript truthiness (NaN is not modelled; numeric payloads are exact). -/
def truthy : JValue → Bool
  | .undefined => false
  | .null => false
  | .bool b => b
  | .num q => !(decide (q = 0))
  | .str s => !(s == "")
  | .arr _ => true
  | .obj _ => true

/-- JavaScript `a || b`. -/
def jsOr (a b : JValue) : JValue := if truthy a then a else b

/-- JavaScript member access `v[k]` / `v?.k`: the value of the first field
named `k` of an object, `undefined` otherwise (non-objects have no such
string-keyed data properties in the payloads we model). -/
def JValue.get : JValue → String → JValue
  | .obj fs, k =>
      match fs.find? (fun kv => kv.1 == k) with
      | some kv => kv.2
      | none => .undefined
  | _, _ => .undefined

/-- Elements of a JS array value (used where the code calls `.map`/`.filter`
on a value it has established to be an array). -/
def jsArr : JValue → List JValue
  | .arr xs => xs
  | _ => []

/-- Whether the value is a JS array (`Array.isArray`). -/
def JValue.isArr : JValue → Bool
  | .arr _ => true
  | _ => false

/-- JavaScript `Object.values` on an object value. -/
def objValues : JValue → List JValue
  | .obj fs => fs.map (fun kv => kv.2)
  | _ => []

/-- JavaScript `typeof v === "object"` (true for objects, arrays and null). -/
def jsTypeofObj : JValue → Bool
  | .obj _ => true
  | .arr _ => true
  | .null => true
  | _ => false

/-- One-level `Array.prototype.flat`. -/
def flat1 : List JValue → List JValue
  | [] => []
  | .arr ys :: rest => ys ++ flat1 rest
  | v :: rest => v :: flat1 rest

/-- Text produced when a JValue is interpolated into JSX; the rendered fields
of the claims under study are strings (absent values render as nothing). -/
def jsxText : JValue → String
  | .str s => s
  | _ => ""

/-- Numeric content of a JValue; the score fields the code feeds into
arithmetic are numbers. -/
def asNum : JValue → ℚ
  | .num q => q
  | _ => 0

/-- String content of a JValue, the empty string otherwise; the `type` fields
the code lowercases are strings or absent. -/
def asStrOrEmpty : JValue → String
  | .str s => s
  | _ => ""

/-- JavaScript `r.result || {}` over an optional payload. -/
def jsOrEmptyObj : Option JValue → JValue
  | some v => if truthy v then v else .obj []
  | none => .obj []

/-- Whether the character list `pat` occurs at the front of `l`. -/
def subAtFront : List Char → List Char → Bool
  | [], _ => true
  | _ :: _, [] => false
  | a :: as, b :: bs => a == b && subAtFront as bs

/-- Whether the character list `pat` occurs anywhere in `l`. -/
def subSomewhere (pat : List Char) : List Char → Bool
  | [] => subAtFront pat []
  | b :: bs => subAtFront pat (b :: bs) || subSomewhere pat bs

/-- JavaScript `s.includes(pat)` on strings. -/
def strIncludes (s pat : String) : Bool := subSomewhere pat.toList s.toList

/-- Decimal rendering of the natural number `m` of hundredths as the JS
number `m / 100` prints (shortest form, trailing zeros dropped). -/
def formatHundredthsNat (m : ℕ) : String :=
  let w := m / 100
  let r := m % 100
  if r = 0 then toString w
  else if r % 10 = 0 then toString w ++ "." ++ toString (r / 10)
  else if r < 10 then toString w ++ ".0" ++ toString r
  else toString w ++ "." ++ toString r

/-- Decimal rendering of the integer `n` of hundredths, i.e. how JS prints
the number `n / 100`. -/
def formatHundredths (n : ℤ) : String :=
  if n < 0 then "-" ++ formatHundredthsNat n.natAbs else formatHundredthsNat n.natAbs

/-- Status of one analysis agent (store interface `AgentResult.status`). -/
inductive AgentStatus where
  | pending
  | running
  | completed
  | error
deriving DecidableEq, BEq, Repr

instance : LawfulBEq AgentStatus where
  eq_of_beq := by intro a b h; cases a <;> cases b <;> first | rfl | exact absurd h (by decide)
  rfl := by intro a; cases a <;> decide

/-- Store entry for one agent (interface `AgentResult` in the store module);
timestamps are modelled as abstract clock readings. -/
structure AgentResult where
  agentName : String
  status : AgentStatus
  result : Option JValue
  timestamp : Option ℕ

/-- Application user (interface `AppUser`). -/
structure AppUser where
  id : String
  email : String
  name : String
deriving DecidableEq

/-- Supabase session object, treated as opaque credential data. -/
structure SupaSession where
  data : String
deriving DecidableEq

/-- Urgency levels of a patient case. -/
inductive Urgency where
  | low
  | medium
  | high
  | critical
deriving DecidableEq

/-- The `currentMedications` field allows both a string and a string array. -/
inductive Medications where
  | one (s : String)
  | many (l : List String)
deriving DecidableEq

/-- Patient case (interface `PatientCase`). -/
structure PatientCase where
  patientId : String
  age : ℤ
  gender : String
  symptoms : String
  medicalHistory : String
  currentMedications : Medications
  urgency : Urgency
deriving DecidableEq

/-- Aggregate dashboard counters (the `stats` sub-object). -/
structure Stats where
  activeAgents : ℚ
  completedCases : ℚ
  casesAnalyzed : ℚ
  progress : ℚ
  totalAnalysisTime : ℚ
deriving DecidableEq

/-- Partial update for `updateStats`: an absent field is left unchanged. -/
structure StatsPatch where
  activeAgents : Option ℚ
  completedCases : Option ℚ
  casesAnalyzed : Option ℚ
  progress : Option ℚ
  totalAnalysisTime : Option ℚ

/-- Complete state of `useAppStore`. -/
structure AppState where
  user : Option AppUser
  session : Option SupaSession
  isAuthenticated : Bool
  stats : Stats
  currentCase : Option PatientCase
  agentResults : List AgentResult
  analysisInProgress : Bool

/-- Initial stats of the store creator. -/
def initialStats : Stats :=
  { activeAgents := 5
    completedCases := 0
    casesAnalyzed := 0
    progress := 0
    totalAnalysisTime := 0 }

/-- Initial state of the store creator. -/
def initialState : AppState :=
  { user := none
    session := none
    isAuthenticated := false
    stats := initialStats
    currentCase := none
    agentResults := []
    analysisInProgress := false }

/-- Mutator `setAuth(user, session)`. -/
def setAuth (user : Option AppUser) (session : Option SupaSession) (st : AppState) : AppState :=
  { st with user := user, session := session, isAuthenticated := user.isSome }

/-- Mutator `clearAuth()`. -/
def clearAuth (st : AppState) : AppState :=
  { st with user := none, session := none, isAuthenticated := false }

/-- Mutator `updateStats(updates)`: shallow merge into `stats`. -/
def updateStats (p : StatsPatch) (st : AppState) : AppState :=
  { st with stats :=
    { activeAgents := p.activeAgents.getD st.stats.activeAgents
      completedCases := p.completedCases.getD st.stats.completedCases
      casesAnalyzed := p.casesAnalyzed.getD st.stats.casesAnalyzed
      progress := p.progress.getD st.stats.progress
      totalAnalysisTime := p.totalAnalysisTime.getD st.stats.totalAnalysisTime } }

/-- Mutator `incrementCompletedCases()`. -/
def incrementCompletedCases (st : AppState) : AppState :=
  { st with stats := { st.stats with completedCases := st.stats.completedCases + 1 } }

/-- Mutator `incrementCasesAnalyzed()`. -/
def incrementCasesAnalyzed (st : AppState) : AppState :=
  { st with stats := { st.stats with casesAnalyzed := st.stats.casesAnalyzed + 1 } }

/-- Mutator `setCurrentCase(patientCase)`. -/
def setCurrentCase (c : PatientCase) (st : AppState) : AppState :=
  { st with currentCase := some c }

/-- Mutator `setAnalysisInProgress(inProgress)`. -/
def setAnalysisInProgress (b : Bool) (st : AppState) : AppState :=
  { st with analysisInProgress := b }

/-- Mutator `updateAgentResult(agentName, status, result?)`; `now` models the
fresh `new Date()` timestamp taken inside the mutator. -/
def updateAgentResult (agentName : String) (status : AgentStatus)
    (result : Option JValue) (now : ℕ) (st : AppState) : AppState :=
  let existingIndex := st.agentResults.findIdx? (fun ar => ar.agentName == agentName)
  let newResult : AgentResult :=
    { agentName := agentName, status := status, result := result, timestamp := some now }
  match existingIndex with
  | some i => { st with agentResults := st.agentResults.set i newResult }
  | none => { st with agentResults := st.agentResults ++ [newResult] }

/-- Mutator `clearResults()`. -/
def clearResults (st : AppState) : AppState :=
  { st with agentResults := [] }

/-- The `partialize` option of the persist middleware: only `stats` is
written to storage on a mutation. -/
def partialize (st : AppState) : Stats := st.stats

/-- Rehydration on a fresh process start: the persisted slice is merged into
the initial state. -/
def rehydrate (saved : Stats) : AppState :=
  { initialState with stats := saved }

/-- Reload simulation: persist the current state, then start fresh. -/
def reloadFrom (st : AppState) : AppState := rehydrate (partialize st)

/-- One store mutation, for quantifying over call sequences. -/
inductive StoreOp where
  | setAuth (user : Option AppUser) (session : Option SupaSession)
  | clearAuth
  | updateStats (p : StatsPatch)
  | incrementCompletedCases
  | incrementCasesAnalyzed
  | setCurrentCase (c : PatientCase)
  | setAnalysisInProgress (b : Bool)
  | updateAgentResult (agentName : String) (status : AgentStatus)
      (result : Option JValue) (now : ℕ)
  | clearResults

/-- Apply one store mutation. -/
def applyOp (st : AppState) : StoreOp → AppState
  | .setAuth u s => setAuth u s st
  | .clearAuth => clearAuth st
  | .updateStats p => updateStats p st
  | .incrementCompletedCases => incrementCompletedCases st
  | .incrementCasesAnalyzed => incrementCasesAnalyzed st
  | .setCurrentCase c => setCurrentCase c st
  | .setAnalysisInProgress b => setAnalysisInProgress b st
  | .updateAgentResult n stt r now => updateAgentResult n stt r now st
  | .clearResults => clearResults st

/-- Run a sequence of store mutations from the initial state. -/
def runOps (ops : List StoreOp) : AppState := ops.foldl applyOp initialState

/-- One `updateAgentResult` call, with the clock reading taken inside it. -/
structure UpdateCall where
  agentName : String
  status : AgentStatus
  result : Option JValue
  now : ℕ

/-- The entry that `updateAgentResult` builds for a call. -/
def newAgentResult (c : UpdateCall) : AgentResult :=
  { agentName := c.agentName, status := c.status, result := c.result, timestamp := some c.now }

/-- Run a sequence of `updateAgentResult` calls from the initial state. -/
def runUpdates (calls : List UpdateCall) : AppState :=
  calls.foldl (fun st c => updateAgentResult c.agentName c.status c.result c.now st) initialState

/-- Recursive characterization of the upsert performed on the entry list:
replace the first entry with the same name in place, else append. -/
def upsertGo (nr : AgentResult) : List AgentResult → List AgentResult
  | [] => [nr]
  | a :: l => if a.agentName == nr.agentName then nr :: l else a :: upsertGo nr l

/-- Spec-side definition (from the wording of the specification): the order
of first occurrence of each name in a sequence of names. -/
def specFirstSeenOrder (names : List String) : List String :=
  names.foldl (fun acc n => if n ∈ acc then acc else acc ++ [n]) []

/-- Completed results, as computed at the top of the render of
`ResultsPanel` (`agentResults.filter(r => r.status === "completed")`). -/
def completedResults (rs : List AgentResult) : List AgentResult :=
  rs.filter (fun r => r.status == AgentStatus.completed)

/-- Agent names of the result sections of `ResultsPanel`, in the order the
component emits them (`completedResults.map(...)`). -/
def renderedAgentOrder (rs : List AgentResult) : List String :=
  (completedResults rs).map (fun r => r.agentName)

/-- Spec-side definition (from the wording of the specification): the fixed
five-agent display order the spec prescribes. -/
def fixedAgentOrder : List String :=
  ["symptom", "literature", "case", "treatment", "summary"]

/-- Spec-side definition (from the wording of the specification): completed
agents listed by traversing the fixed agent order. -/
def specDisplayOrder (rs : List AgentResult) : List String :=
  fixedAgentOrder.filter (fun n =>
    rs.any (fun r => r.agentName == n && r.status == AgentStatus.completed))

/-- The `real = result.result || {}` binding of the section renderer. -/
def realOf (r : AgentResult) : JValue := jsOrEmptyObj r.result

/-- Mock fallback `similarCases` of `getMockResults("case")`. -/
def mockSimilarCases : JValue :=
  .arr
    [ .obj
        [ ("caseId", .str "C-2024-001")
        , ("similarity", .num 92)
        , ("outcome", .str "Successful treatment with medication") ]
    , .obj
        [ ("caseId", .str "C-2023-156")
        , ("similarity", .num 87)
        , ("outcome", .str "Required surgical intervention") ] ]

/-- Mock fallback `references` of `getMockResults("literature")`. -/
def mockReferences : JValue :=
  .arr
    [ .obj
        [ ("title", .str "Recent advances in cardiovascular diagnostics")
        , ("journal", .str "Nature Medicine")
        , ("year", .num 2024)
        , ("relevance", .str "High") ]
    , .obj
        [ ("title", .str "Inflammatory markers in cardiac conditions")
        , ("journal", .str "NEJM")
        , ("year", .num 2023)
        , ("relevance", .str "Medium") ] ]

/-- Mock fallback `drugOptions` of `getMockResults("treatment")`. -/
def mockDrugOptions : JValue :=
  .arr
    [ .obj
        [ ("medication", .str "ACE Inhibitor")
        , ("dosage", .str "10mg daily")
        , ("confidence", .num 88) ]
    , .obj
        [ ("medication", .str "Beta Blocker")
        , ("dosage", .str "25mg twice daily")
        , ("confidence", .num 75) ] ]

/-- Mock fallback `nonDrugOptions` of `getMockResults("treatment")`. -/
def mockNonDrugOptions : JValue :=
  .arr
    [ .str "Lifestyle modifications"
    , .str "Regular monitoring"
    , .str "Dietary changes" ]

/-- The score expression `caseItem.match_score || caseItem.similarity || 0`
of the case section. -/
def rawScore (c : JValue) : JValue :=
  jsOr (c.get "match_score") (jsOr (c.get "similarity") (.num 0))

/-- Badge text of one matched case:
`Math.round(score * 100) / 100` interpolated before the literal
`% match` (the division by 100 and the JS decimal printing are fused into
`formatHundredths` of the rounded integer). -/
def matchBadgeText (c : JValue) : String :=
  formatHundredths (round (asNum (rawScore c) * 100)) ++ "% match"

/-- The case list `real.matched_cases || mockResults.similarCases || []`
of the case section. -/
def caseItems (real : JValue) : List JValue :=
  jsArr (jsOr (real.get "matched_cases") (jsOr mockSimilarCases (.arr [])))

/-- Badge texts of the case section, in render order. -/
def caseBadges (real : JValue) : List String :=
  (caseItems real).map matchBadgeText

/-- The article list of the literature section: `articles.summaries` when
that is truthy, `articles` itself when it is an array, the flattened
`Object.values` when it is a truthy object, else the mock references. -/
def literatureArticles (real : JValue) : List JValue :=
  let articles := real.get "articles"
  if truthy (articles.get "summaries") then jsArr (articles.get "summaries")
  else if articles.isArr then jsArr articles
  else if truthy articles && jsTypeofObj articles then flat1 (objValues articles)
  else jsArr (jsOr mockReferences (.arr []))

/-- Title line of one rendered reference (`ref.title || "Reference"`). -/
def refTitleText (r : JValue) : String :=
  jsxText (jsOr (r.get "title") (.str "Reference"))

/-- Reference titles of the literature section, in render order. -/
def literatureRefTitles (real : JValue) : List String :=
  (literatureArticles real).map refTitleText

/-- ASCII lowering of one character, as `toLowerCase` acts on the ASCII
type strings of the payloads. -/
def lowerChar (c : Char) : Char :=
  if 65 ≤ c.toNat ∧ c.toNat ≤ 90 then Char.ofNat (c.toNat + 32) else c

/-- ASCII `toLowerCase` on a string. -/
def lowerStr (s : String) : String := ⟨s.data.map lowerChar⟩

/-- Lowercased type of a treatment entry (`(t.type || "").toLowerCase()`). -/
def typeStringOf (t : JValue) : String :=
  lowerStr (asStrOrEmpty (jsOr (t.get "type") (.str "")))

/-- Drug filter of the treatment section:
`type.includes("drug") || type === "drug"`. -/
def isDrugTypeB (t : JValue) : Bool :=
  strIncludes (typeStringOf t) "drug" || typeStringOf t == "drug"

/-- Non-drug filter of the treatment section:
`type.includes("non-drug") || type === "non-drug"`. -/
def isNonDrugTypeB (t : JValue) : Bool :=
  strIncludes (typeStringOf t) "non-drug" || typeStringOf t == "non-drug"

/-- Entries shown under the Drug Treatments heading: the drug-filtered
entries, or the first three treatments when that filter is empty but
treatments exist. -/
def drugSectionTreatments (real : JValue) : List JValue :=
  let treatments := jsArr (jsOr (real.get "treatments") (jsOr mockDrugOptions (.arr [])))
  let drugTreatments := treatments.filter isDrugTypeB
  if drugTreatments.length = 0 && treatments.length > 0 then treatments.take 3
  else drugTreatments

/-- Entries shown under the Non-Drug Options heading. -/
def nonDrugSectionTreatments (real : JValue) : List JValue :=
  let treatments := jsArr (jsOr (real.get "treatments") (jsOr mockNonDrugOptions (.arr [])))
  treatments.filter isNonDrugTypeB

/-- Name line of one rendered treatment entry (`drug.name || drug.medication`). -/
def treatmentNameText (t : JValue) : String :=
  jsxText (jsOr (t.get "name") (t.get "medication"))

/-- Patient block attached to the PDF payload when a case is set. -/
structure PatientInfo where
  patientId : String
  age : ℤ
  gender : String
  medicalHistory : String
  currentMedications : Medications
  urgency : Urgency
  primary_complaint : String
deriving DecidableEq

/-- Build the `patient_info` block of `handleDownloadReport` from the case. -/
def toPatientInfo (c : PatientCase) : PatientInfo :=
  { patientId := c.patientId
    age := c.age
    gender := c.gender
    medicalHistory := c.medicalHistory
    currentMedications := c.currentMedications
    urgency := c.urgency
    primary_complaint := c.symptoms }

/-- PDF payload assembled by `handleDownloadReport`; a `none` field models a
key that was never assigned on the payload object. -/
structure ReportPayload where
  symptom_analysis : Option JValue
  literature : Option JValue
  case_matcher : Option JValue
  treatment : Option JValue
  summary : Option JValue
  patient_info : Option PatientInfo

/-- The payload object literal `{}` before the loop. -/
def emptyReportPayload : ReportPayload :=
  { symptom_analysis := none
    literature := none
    case_matcher := none
    treatment := none
    summary := none
    patient_info := none }

/-- One iteration of the payload loop: skip non-completed results, else
assign the field selected by the agent name to `r.result || {}`. -/
def setAgentField (p : ReportPayload) (r : AgentResult) : ReportPayload :=
  if r.status ≠ AgentStatus.completed then p
  else if r.agentName = "symptom" then { p with symptom_analysis := some (jsOrEmptyObj r.result) }
  else if r.agentName = "literature" then { p with literature := some (jsOrEmptyObj r.result) }
  else if r.agentName = "case" then { p with case_matcher := some (jsOrEmptyObj r.result) }
  else if r.agentName = "treatment" then { p with treatment := some (jsOrEmptyObj r.result) }
  else if r.agentName = "summary" then { p with summary := some (jsOrEmptyObj r.result) }
  else p

/-- The payload of `handleDownloadReport` after the loop and the optional
`patient_info` attachment. -/
def buildReportPayload (rs : List AgentResult) (cc : Option PatientCase) : ReportPayload :=
  let p := rs.foldl setAgentField emptyReportPayload
  match cc with
  | some c => { p with patient_info := some (toPatientInfo c) }
  | none => p

/-- JavaScript `Object.keys(payload).length === 0`: no field was assigned. -/
def payloadIsEmpty (p : ReportPayload) : Bool :=
  p.symptom_analysis.isNone && p.literature.isNone && p.case_matcher.isNone &&
    p.treatment.isNone && p.summary.isNone && p.patient_info.isNone

/-- Outcome of `handleDownloadReport` up to the point where either the
destructive validation toast is shown and the handler returns, or the
network call to the generate-pdf endpoint is issued. -/
inductive DownloadOutcome where
  | validationToast
  | networkCall (p : ReportPayload)

/-- The branch structure of `handleDownloadReport`. -/
def handleDownloadReport (rs : List AgentResult) (cc : Option PatientCase) : DownloadOutcome :=
  let payload := buildReportPayload rs cc
  if payloadIsEmpty payload then .validationToast
  else .networkCall payload

/-- The five agent names `handleDownloadReport` maps into payload keys. -/
def knownAgentNames : List String :=
  ["symptom", "literature", "case", "treatment", "summary"]

/-- The entry-list trace of a sequence of `updateAgentResult` calls,
expressed through the recursive upsert. -/
def runUpdateList (calls : List UpdateCall) : List AgentResult :=
  calls.foldl (fun l c => upsertGo (newAgentResult c) l) []

/-- None of the five per-agent keys of the PDF payload has been assigned. -/
def noAgentFieldSet (p : ReportPayload) : Prop :=
  p.symptom_analysis = none ∧ p.literature = none ∧ p.case_matcher = none ∧
    p.treatment = none ∧ p.summary = none

/-- Two completed results arriving in the order literature, symptom. -/
def c2exResults : List AgentResult :=
  [ { agentName := "literature", status := .completed, result := none, timestamp := none }
  , { agentName := "symptom", status := .completed, result := none, timestamp := none } ]

/-- A case-matcher payload whose single match carries the fractional
similarity 0.9234. -/
def c3exReal : JValue :=
  .obj [("matched_cases",
    .arr [.obj [("name", .str "Case A"), ("similarity", .num 0.9234)]])]

/-- A treatment entry typed non-drug. -/
def c6exEntry : JValue :=
  .obj [("type", .str "non-drug"), ("name", .str "Exercise therapy")]

/-- A treatment payload holding exactly the non-drug entry. -/
def c6exReal : JValue := .obj [("treatments", .arr [c6exEntry])]

/-- A result list with no completed entry. -/
def c7exResults : List AgentResult :=
  [ { agentName := "symptom", status := .pending, result := none, timestamp := some 0 } ]

/-- A saved patient case. -/
def c7exCase : PatientCase :=
  { patientId := "P-1"
    age := 40
    gender := "F"
    symptoms := "cough, fever"
    medicalHistory := ""
    currentMedications := .one ""
    urgency := .high }

/-- Object-of-sequences article fields, without a summaries field. -/
def c8exFields : List (String × JValue) :=
  [ ("sectionA", .arr [.obj [("title", .str "X")]])
  , ("sectionB", .arr [.obj [("title", .str "Y")]]) ]

/-- A literature payload whose articles value is `c8exFields` as an object. -/
def c8exReal : JValue := .obj [("articles", .obj c8exFields)]

/-- A completed symptom entry holding a result payload. -/
def c9exOld : AgentResult :=
  { agentName := "symptom"
    status := .completed
    result := some (.obj [("risk_level", .str "high")])
    timestamp := some 1 }

/-- A store state holding the completed symptom entry. -/
def c9exState : AppState := { initialState with agentResults := [c9exOld] }

theorem subAtFront_iff (pat : List Char) : ∀ l : List Char, subAtFront pat l = true ↔ pat <+: l := by
  induction pat with
  | nil => intro l; simp [subAtFront, List.nil_prefix]
  | cons a as ih =>
    intro l
    cases l with
    | nil => simp [subAtFront]
    | cons b bs =>
      simp [subAtFront, List.cons_prefix_cons, ih, Bool.and_eq_true, beq_iff_eq]

theorem subSomewhere_iff (pat : List Char) : ∀ l : List Char, subSomewhere pat l = true ↔ pat <:+: l := by
  intro l
  induction l with
  | nil =>
    rw [show subSomewhere pat [] = subAtFront pat [] from rfl, subAtFront_iff]
    simp [List.prefix_nil, List.infix_nil]
  | cons b bs ih =>
    rw [show subSomewhere pat (b :: bs) = (subAtFront pat (b :: bs) || subSomewhere pat bs) from rfl]
    simp [Bool.or_eq_true, subAtFront_iff, ih, List.infix_cons_iff]

theorem nonDrugType_imp_drugType (t : JValue) :
    isNonDrugTypeB t = true → isDrugTypeB t = true := by
  unfold isNonDrugTypeB isDrugTypeB strIncludes
  intro h
  rcases Bool.or_eq_true_iff.mp h with h1 | h2
  · refine Bool.or_eq_true_iff.mpr (Or.inl ?_)
    have hinf : "non-drug".toList <:+: (typeStringOf t).toList := (subSomewhere_iff _ _).mp h1
    have hdn : "drug".toList <:+: "non-drug".toList := by
      have hc : subSomewhere "drug".toList "non-drug".toList = true := rfl
      exact (subSomewhere_iff _ _).mp hc
    exact (subSomewhere_iff _ _).mpr (hdn.trans hinf)
  · refine Bool.or_eq_true_iff.mpr (Or.inl ?_)
    have hty : typeStringOf t = "non-drug" := beq_iff_eq.mp h2
    rw [hty]
    rfl

/-- Claim C4: after clearResults, agentResults reads as the empty collection
and every other field of the store, in particular stats and currentCase, is
exactly what it was before the call. -/
theorem claim_C4_clearResults_frame (st : AppState) :
    (clearResults st).agentResults = []
    ∧ (clearResults st).stats = st.stats
    ∧ (clearResults st).currentCase = st.currentCase
    ∧ (clearResults st).user = st.user
    ∧ (clearResults st).session = st.session
    ∧ (clearResults st).isAuthenticated = st.isAuthenticated
    ∧ (clearResults st).analysisInProgress = st.analysisInProgress :=
  ⟨rfl, rfl, rfl, rfl, rfl, rfl, rfl⟩

/-- Claim C5: after a reload following any sequence of store operations,
stats retains its pre-reset value while user, session, currentCase and
agentResults are at their initial null or empty values: only the stats
sub-object is durably persisted. -/
theorem claim_C5_persist_stats_only (ops : List StoreOp) :
    (reloadFrom (runOps ops)).stats = (runOps ops).stats
    ∧ (reloadFrom (runOps ops)).user = none
    ∧ (reloadFrom (runOps ops)).session = none
    ∧ (reloadFrom (runOps ops)).currentCase = none
    ∧ (reloadFrom (runOps ops)).agentResults = []
    ∧ (reloadFrom (runOps ops)).isAuthenticated = false
    ∧ (reloadFrom (runOps ops)).analysisInProgress = false :=
  ⟨rfl, rfl, rfl, rfl, rfl, rfl, rfl⟩

/-- Claim C10: setAuth stores user and session independently; a null user
with a non-null session leaves the session stored while isAuthenticated is
false, and isAuthenticated is derived solely from the user being non-null. -/
theorem claim_C10_setAuth_independent (st : AppState) (s : SupaSession)
    (u : Option AppUser) (s2 : Option SupaSession) :
    (setAuth none (some s) st).session = some s
    ∧ (setAuth none (some s) st).user = none
    ∧ (setAuth none (some s) st).isAuthenticated = false
    ∧ (setAuth u s2 st).isAuthenticated = u.isSome :=
  ⟨rfl, rfl, rfl, rfl⟩

/-- Claim C2 counterexample: with the completed results arriving in the
order literature, symptom, the component renders them in that arrival
order, not in the fixed agent order the claim prescribes. -/
theorem claim_C2_counterexample :
    renderedAgentOrder c2exResults = ["literature", "symptom"]
    ∧ specDisplayOrder c2exResults = ["symptom", "literature"]
    ∧ renderedAgentOrder c2exResults ≠ specDisplayOrder c2exResults := by
  refine ⟨rfl, rfl, ?_⟩
  intro h
  rw [show renderedAgentOrder c2exResults = ["literature", "symptom"] from rfl,
    show specDisplayOrder c2exResults = ["symptom", "literature"] from rfl] at h
  exact absurd h (by decide)

/-- Claim C2, amended: rendering shows exactly the completed entries of the
collection, but in the collection order (insertion/arrival order), not in
the fixed agent order. -/
theorem claim_C2_display_amended (rs : List AgentResult) :
    renderedAgentOrder rs
      = (rs.filter (fun r => r.status == AgentStatus.completed)).map (fun r => r.agentName)
    ∧ (∀ n : String, n ∈ renderedAgentOrder rs
        ↔ ∃ r ∈ rs, r.agentName = n ∧ r.status = AgentStatus.completed)
    ∧ (renderedAgentOrder rs).Sublist (rs.map (fun r => r.agentName)) := by
  refine ⟨rfl, ?_, ?_⟩
  · intro n
    simp only [renderedAgentOrder, completedResults, List.mem_map, List.mem_filter,
      beq_iff_eq]
    constructor
    · rintro ⟨r, ⟨hr, hst⟩, rfl⟩
      exact ⟨r, hr, rfl, hst⟩
    · rintro ⟨r, hr, rfl, hst⟩
      exact ⟨r, ⟨hr, hst⟩, rfl⟩
  · exact List.Sublist.map _ (List.filter_sublist _)

/-- Claim C3 counterexample: the raw fractional score 0.9234 is rendered as
the badge 0.92% match, not as the 92.34% match the claim prescribes (the
code rounds the raw value to two decimals without rescaling it). -/
theorem claim_C3_counterexample :
    caseBadges c3exReal = ["0.92% match"]
    ∧ caseBadges c3exReal ≠ ["92.34% match"] := by
  have hsc : (0.9234 : ℚ) ≠ 0 := by norm_num
  have h0 : caseItems c3exReal
      = [.obj [("name", .str "Case A"), ("similarity", .num 0.9234)]] := rfl
  have h1 : caseBadges c3exReal
      = [matchBadgeText (.obj [("name", .str "Case A"), ("similarity", .num 0.9234)])] := by
    rw [caseBadges, h0]
    rfl
  have h2 : matchBadgeText (.obj [("name", .str "Case A"), ("similarity", .num 0.9234)])
      = formatHundredths (round ((0.9234 : ℚ) * 100)) ++ "% match" := by
    unfold matchBadgeText rawScore
    rw [show (JValue.obj [("name", .str "Case A"), ("similarity", .num 0.9234)]).get "match_score"
        = JValue.undefined from rfl,
      show (JValue.obj [("name", .str "Case A"), ("similarity", .num 0.9234)]).get "similarity"
        = JValue.num 0.9234 from rfl]
    simp [jsOr, truthy, asNum, hsc]
  have h3 : round ((0.9234 : ℚ) * 100) = 92 := by rw [round_eq]; norm_num
  rw [h1, h2, h3]
  exact ⟨by decide, by decide⟩

/-- Claim C3, amended: the badge shows the raw similarity value rounded to
two decimal places (within half a hundredth of the raw value) with the
percent-match label appended, without conversion of a fraction to a
0 to 100 scale; in particular 0.9234 renders as 0.92% match. -/
theorem claim_C3_match_score_amended (q : ℚ) :
    matchBadgeText (.obj [("similarity", .num q)])
      = formatHundredths (round (q * 100)) ++ "% match"
    ∧ |((round (q * 100) : ℚ)) / 100 - q| ≤ 1 / 200 := by
  constructor
  · have hms : (JValue.obj [("similarity", JValue.num q)]).get "match_score"
        = JValue.undefined := rfl
    have hsim : (JValue.obj [("similarity", JValue.num q)]).get "similarity"
        = JValue.num q := rfl
    unfold matchBadgeText rawScore
    rw [hms, hsim]
    by_cases hq : q = 0
    · subst hq
      rfl
    · simp [jsOr, truthy, hq, asNum]
  · have h := abs_sub_round ((q : ℚ) * 100)
    have heq : ((round (q * 100) : ℤ) : ℚ) / 100 - q
        = -((q * 100 - ((round (q * 100) : ℤ) : ℚ)) / 100) := by ring
    rw [heq, abs_neg, abs_div]
    have h100 : |(100 : ℚ)| = 100 := by norm_num
    rw [h100]
    linarith

/-- Claim C6 counterexample: a treatments list whose single entry is typed
non-drug puts that entry in the drug section (the type contains the
substring drug) and in the non-drug section, so the two sections are not a
partition: the entry appears in both. -/
theorem claim_C6_counterexample :
    drugSectionTreatments c6exReal = [c6exEntry]
    ∧ nonDrugSectionTreatments c6exReal = [c6exEntry] := ⟨rfl, rfl⟩

/-- Claim C6, amended: the drug section holds the entries whose lowercased
type contains the substring drug — which includes every non-drug typed
entry, so an entry can appear in both sections; the non-drug section holds
the entries whose type contains non-drug; when no type contains drug yet
treatments exist, the first three entries are shown as drug treatments. -/
theorem claim_C6_treatment_sections_amended (real : JValue) (ts : List JValue)
    (h : real.get "treatments" = JValue.arr ts) :
    (∀ t, t ∈ nonDrugSectionTreatments real ↔ t ∈ ts ∧ isNonDrugTypeB t = true)
    ∧ ((∃ t ∈ ts, isDrugTypeB t = true) →
        ∀ t, t ∈ drugSectionTreatments real ↔ t ∈ ts ∧ isDrugTypeB t = true)
    ∧ ((∀ t ∈ ts, isDrugTypeB t = false) → ts ≠ [] → drugSectionTreatments real = ts.take 3)
    ∧ (∀ t, isNonDrugTypeB t = true → isDrugTypeB t = true) := by
  have htr : jsArr (jsOr (real.get "treatments") (jsOr mockDrugOptions (.arr []))) = ts := by
    rw [h]
    rfl
  have htr2 : jsArr (jsOr (real.get "treatments") (jsOr mockNonDrugOptions (.arr []))) = ts := by
    rw [h]
    rfl
  refine ⟨?_, ?_, ?_, nonDrugType_imp_drugType⟩
  · intro t
    simp only [nonDrugSectionTreatments, htr2, List.mem_filter]
  · rintro ⟨t0, ht0, hd0⟩ t
    have hmem : t0 ∈ ts.filter isDrugTypeB := List.mem_filter.mpr ⟨ht0, hd0⟩
    have hne : (ts.filter isDrugTypeB).length ≠ 0 := by
      intro hlen
      rw [List.length_eq_zero] at hlen
      rw [hlen] at hmem
      exact absurd hmem (List.not_mem_nil t0)
    simp only [drugSectionTreatments, htr]
    simp [hne, List.mem_filter]
  · intro hall hne
    have hfil : ts.filter isDrugTypeB = [] := by
      refine List.filter_eq_nil_iff.mpr ?_
      intro a ha
      simp [hall a ha]
    have hlen : 0 < ts.length := List.length_pos.mpr hne
    simp only [drugSectionTreatments, htr]
    simp [hfil, hlen]

/-- Claim C6 witness: the amended theorem applied to the concrete non-drug
payload; the entry lands in both sections. -/
theorem claim_C6_witness :
    c6exReal.get "treatments" = JValue.arr [c6exEntry]
    ∧ c6exEntry ∈ drugSectionTreatments c6exReal
    ∧ c6exEntry ∈ nonDrugSectionTreatments c6exReal := by
  refine ⟨rfl, ?_, ?_⟩
  · have h := (claim_C6_treatment_sections_amended c6exReal [c6exEntry] rfl).2.1
    have hex : ∃ t ∈ [c6exEntry], isDrugTypeB t = true := ⟨c6exEntry, by simp, rfl⟩
    exact (h hex c6exEntry).mpr ⟨by simp, rfl⟩
  · exact ((claim_C6_treatment_sections_amended c6exReal [c6exEntry] rfl).1 c6exEntry).mpr
      ⟨by simp, rfl⟩

/-- Claim C8: a literature result whose articles value is an object of
sequences without a summaries field is flattened into one sequence of
references; the concrete two-section example renders the two titles X, Y. -/
theorem claim_C8_literature_flatten (fs : List (String × JValue))
    (h : (JValue.obj fs).get "summaries" = JValue.undefined) :
    literatureArticles (.obj [("articles", .obj fs)]) = flat1 (fs.map (fun kv => kv.2))
    ∧ literatureRefTitles c8exReal = ["X", "Y"] := by
  constructor
  · have hget : (JValue.obj [("articles", JValue.obj fs)]).get "articles" = JValue.obj fs := rfl
    simp only [literatureArticles, hget, h]
    simp [truthy, JValue.isArr, jsTypeofObj, objValues]
  · rfl

/-- Claim C8 witness: the flatten theorem applied to the concrete
object-of-sequences articles payload. -/
theorem claim_C8_witness :
    (JValue.obj c8exFields).get "summaries" = JValue.undefined
    ∧ literatureArticles (.obj [("articles", .obj c8exFields)])
        = flat1 (c8exFields.map (fun kv => kv.2))
    ∧ literatureRefTitles c8exReal = ["X", "Y"] := by
  have h := claim_C8_literature_flatten c8exFields rfl
  exact ⟨rfl, h.1, h.2⟩

theorem setAgentField_patient_info (p : ReportPayload) (r : AgentResult) :
    (setAgentField p r).patient_info = p.patient_info := by
  unfold setAgentField
  repeat first | rfl | split

theorem foldl_setAgentField_patient_info (rs : List AgentResult) (p : ReportPayload) :
    (rs.foldl setAgentField p).patient_info = p.patient_info := by
  induction rs generalizing p with
  | nil => rfl
  | cons r rs ih => rw [List.foldl_cons, ih, setAgentField_patient_info]

theorem setAgentField_none_iff (p : ReportPayload) (r : AgentResult) :
    noAgentFieldSet (setAgentField p r)
      ↔ noAgentFieldSet p ∧ (r.status = AgentStatus.completed → r.agentName ∉ knownAgentNames) := by
  unfold setAgentField noAgentFieldSet knownAgentNames
  by_cases hs : r.status = AgentStatus.completed
  · rw [if_neg (by simp [hs])]
    by_cases h1 : r.agentName = "symptom"
    · simp [h1, hs]
    · rw [if_neg h1]
      by_cases h2 : r.agentName = "literature"
      · simp [h2, hs]
      · rw [if_neg h2]
        by_cases h3 : r.agentName = "case"
        · simp [h3, hs]
        · rw [if_neg h3]
          by_cases h4 : r.agentName = "treatment"
          · simp [h4, hs]
          · rw [if_neg h4]
            by_cases h5 : r.agentName = "summary"
            · simp [h5, hs]
            · rw [if_neg h5]
              simp [hs, h1, h2, h3, h4, h5]
  · rw [if_pos hs]
    simp [hs]

theorem foldl_setAgentField_none_iff (rs : List AgentResult) (p : ReportPayload) :
    noAgentFieldSet (rs.foldl setAgentField p)
      ↔ noAgentFieldSet p
        ∧ ∀ r ∈ rs, r.status = AgentStatus.completed → r.agentName ∉ knownAgentNames := by
  induction rs generalizing p with
  | nil => simp
  | cons r rs ih =>
    rw [List.foldl_cons, ih, setAgentField_none_iff, List.forall_mem_cons]
    tauto

/-- Claim C7, amended: the validation error is surfaced before any network
call exactly when no payload key gets assigned, i.e. when no current case is
set and no completed entry carries one of the five known agent names; with a
current case set, the download proceeds to the network call even with zero
completed results. -/
theorem claim_C7_report_validation_amended (rs : List AgentResult) (cc : Option PatientCase) :
    handleDownloadReport rs cc = DownloadOutcome.validationToast
      ↔ cc = none
        ∧ ∀ r ∈ rs, r.status = AgentStatus.completed → r.agentName ∉ knownAgentNames := by
  cases cc with
  | some c =>
    have hfalse : payloadIsEmpty (buildReportPayload rs (some c)) = false := by
      simp [payloadIsEmpty, buildReportPayload]
    simp [handleDownloadReport, hfalse]
  | none =>
    have hpi : (rs.foldl setAgentField emptyReportPayload).patient_info = none :=
      foldl_setAgentField_patient_info rs emptyReportPayload
    have hpe : payloadIsEmpty (buildReportPayload rs none) = true
        ↔ noAgentFieldSet (rs.foldl setAgentField emptyReportPayload) := by
      simp [payloadIsEmpty, buildReportPayload, noAgentFieldSet,
        Option.isNone_iff_eq_none, hpi]
      tauto
    constructor
    · intro h
      refine ⟨rfl, ?_⟩
      by_cases hb : payloadIsEmpty (buildReportPayload rs none) = true
      · have hset := hpe.mp hb
        exact ((foldl_setAgentField_none_iff rs emptyReportPayload).mp hset).2
      · exfalso
        have hnc : handleDownloadReport rs none
            = DownloadOutcome.networkCall (buildReportPayload rs none) := by
          simp [handleDownloadReport, hb]
        rw [hnc] at h
        exact DownloadOutcome.noConfusion h
    · rintro ⟨-, hall⟩
      have hset : noAgentFieldSet (rs.foldl setAgentField emptyReportPayload) :=
        (foldl_setAgentField_none_iff rs emptyReportPayload).mpr
          ⟨⟨rfl, rfl, rfl, rfl, rfl⟩, hall⟩
      have hb : payloadIsEmpty (buildReportPayload rs none) = true := hpe.mpr hset
      simp [handleDownloadReport, hb]

/-- Claim C7 counterexample: with zero completed results but a saved current
case, the handler does not surface the validation error — it proceeds to the
network call, because the payload already holds the patient info block. -/
theorem claim_C7_counterexample :
    completedResults c7exResults = []
    ∧ handleDownloadReport c7exResults (some c7exCase)
        = DownloadOutcome.networkCall (buildReportPayload c7exResults (some c7exCase)) :=
  ⟨rfl, rfl⟩

theorem upsert_list_eq (nr : AgentResult) (l : List AgentResult) :
    (match l.findIdx? (fun ar => ar.agentName == nr.agentName) with
      | some i => l.set i nr
      | none => l ++ [nr]) = upsertGo nr l := by
  induction l with
  | nil => rfl
  | cons a l ih =>
    by_cases h : (a.agentName == nr.agentName) = true
    · simp [List.findIdx?_cons, h, upsertGo]
    · have hsucc : l.findIdx? (fun ar => ar.agentName == nr.agentName) 1
          = (l.findIdx? (fun ar => ar.agentName == nr.agentName)).map (fun i => i + 1) :=
        List.findIdx?_succ
      cases hfi : l.findIdx? (fun ar => ar.agentName == nr.agentName) with
      | none =>
        have ih2 : (l ++ [nr] : List AgentResult) = upsertGo nr l := by
          rw [← ih, hfi]
        rw [hfi] at hsucc
        simp only [Option.map_none'] at hsucc
        simp only [List.findIdx?_cons]
        rw [if_neg h, hsucc]
        simp [upsertGo, h, ih2]
      | some j =>
        have ih2 : l.set j nr = upsertGo nr l := by
          rw [← ih, hfi]
        rw [hfi] at hsucc
        simp only [Option.map_some'] at hsucc
        simp only [List.findIdx?_cons]
        rw [if_neg h, hsucc]
        simp [upsertGo, h, List.set_cons_succ, ih2]

theorem updateAgentResult_agentResults (name : String) (status : AgentStatus)
    (result : Option JValue) (now : ℕ) (st : AppState) :
    (updateAgentResult name status result now st).agentResults
      = upsertGo { agentName := name, status := status, result := result, timestamp := some now }
          st.agentResults := by
  unfold updateAgentResult
  rw [← upsert_list_eq]
  cases st.agentResults.findIdx? (fun ar => ar.agentName == name) <;> rfl

theorem upsertGo_map_agentName (nr : AgentResult) (l : List AgentResult) :
    (upsertGo nr l).map (fun r => r.agentName)
      = if nr.agentName ∈ l.map (fun r => r.agentName)
        then l.map (fun r => r.agentName)
        else l.map (fun r => r.agentName) ++ [nr.agentName] := by
  induction l with
  | nil => simp [upsertGo]
  | cons a l ih =>
    by_cases h : (a.agentName == nr.agentName) = true
    · have ha : a.agentName = nr.agentName := beq_iff_eq.mp h
      simp [upsertGo, h, List.map_cons, ha, List.mem_cons]
    · have ha : a.agentName ≠ nr.agentName := by simpa [beq_iff_eq] using h
      by_cases hm : nr.agentName ∈ l.map (fun r => r.agentName)
      · simp [upsertGo, h, ih, hm, List.mem_cons, Ne.symm ha]
      · simp [upsertGo, h, ih, hm, List.mem_cons, Ne.symm ha]

theorem upsertGo_find? (nr : AgentResult) (l : List AgentResult) (n : String) :
    (upsertGo nr l).find? (fun r => r.agentName == n)
      = if nr.agentName = n then some nr else l.find? (fun r => r.agentName == n) := by
  induction l with
  | nil =>
    by_cases h : nr.agentName = n
    · simp [upsertGo, List.find?, h]
    · have hb : (nr.agentName == n) = false := by simp [h]
      simp [upsertGo, List.find?, hb, h]
  | cons a l ih =>
    by_cases h : (a.agentName == nr.agentName) = true
    · have ha : a.agentName = nr.agentName := beq_iff_eq.mp h
      by_cases hn : nr.agentName = n
      · simp [upsertGo, h, List.find?, hn, ha]
      · have hb : (nr.agentName == n) = false := by simp [hn]
        have hb2 : (a.agentName == n) = false := by simp [ha, hn]
        simp [upsertGo, h, List.find?, hb, hb2, hn]
    · have ha : a.agentName ≠ nr.agentName := by simpa [beq_iff_eq] using h
      by_cases han : (a.agentName == n) = true
      · have han2 : a.agentName = n := beq_iff_eq.mp han
        have hn : nr.agentName ≠ n := by
          intro e
          exact ha (by rw [han2, e])
        simp [upsertGo, h, List.find?, han, hn]
      · simp [upsertGo, h, List.find?, han, ih]

theorem runUpdates_agentResults (calls : List UpdateCall) :
    (runUpdates calls).agentResults = runUpdateList calls := by
  suffices h : ∀ (cs : List UpdateCall) (st : AppState),
      (cs.foldl (fun st c => updateAgentResult c.agentName c.status c.result c.now st) st).agentResults
        = cs.foldl (fun l c => upsertGo (newAgentResult c) l) st.agentResults by
    exact h calls initialState
  intro cs
  induction cs with
  | nil => intro st; rfl
  | cons c cs ih =>
    intro st
    rw [List.foldl_cons, List.foldl_cons, ih, updateAgentResult_agentResults]
    rfl

theorem runUpdateList_concat (cs : List UpdateCall) (c : UpdateCall) :
    runUpdateList (cs ++ [c]) = upsertGo (newAgentResult c) (runUpdateList cs) := by
  simp [runUpdateList, List.foldl_append]

theorem specFirstSeenOrder_concat (xs : List String) (x : String) :
    specFirstSeenOrder (xs ++ [x])
      = if x ∈ specFirstSeenOrder xs then specFirstSeenOrder xs
        else specFirstSeenOrder xs ++ [x] := by
  simp [specFirstSeenOrder, List.foldl_append]

theorem specFirstSeenOrder_nodup (xs : List String) : (specFirstSeenOrder xs).Nodup := by
  have h : ∀ (ys : List String) (acc : List String), acc.Nodup →
      (ys.foldl (fun acc n => if n ∈ acc then acc else acc ++ [n]) acc).Nodup := by
    intro ys
    induction ys with
    | nil => intro acc hacc; simpa using hacc
    | cons y ys ih =>
      intro acc hacc
      rw [List.foldl_cons]
      by_cases hm : y ∈ acc
      · rw [if_pos hm]
        exact ih acc hacc
      · rw [if_neg hm]
        refine ih _ ?_
        simp [List.nodup_append, hacc, hm]
  exact h xs [] List.nodup_nil

theorem runUpdateList_names (calls : List UpdateCall) :
    (runUpdateList calls).map (fun r => r.agentName)
      = specFirstSeenOrder (calls.map (fun c => c.agentName)) := by
  induction calls using List.reverseRecOn with
  | nil => rfl
  | append_singleton cs c ih =>
    rw [runUpdateList_concat, upsertGo_map_agentName, ih]
    have hm : List.map (fun c => c.agentName) (cs ++ [c])
        = List.map (fun c => c.agentName) cs ++ [c.agentName] := by simp
    rw [hm, specFirstSeenOrder_concat]
    rfl

theorem runUpdateList_find? (calls : List UpdateCall) (n : String) :
    (runUpdateList calls).find? (fun r => r.agentName == n)
      = ((calls.filter (fun c => c.agentName == n)).getLast?).map newAgentResult := by
  induction calls using List.reverseRecOn with
  | nil => rfl
  | append_singleton cs c ih =>
    rw [runUpdateList_concat, upsertGo_find?, List.filter_append]
    by_cases h : c.agentName = n
    · have hb : (c.agentName == n) = true := by simp [h]
      rw [if_pos (show (newAgentResult c).agentName = n from h)]
      simp [hb, List.getLast?_concat]
    · have hb : (c.agentName == n) = false := by simp [h]
      rw [if_neg (show ¬ (newAgentResult c).agentName = n from h)]
      simp [hb, ih]

/-- Claim C1: over every sequence of updateAgentResult calls from the empty
collection, agent names stay free of duplicates, the collection lists the
agents in first-seen order (an existing name is replaced in place, a new
name is appended), and the entry of each name carries the status, result
and fresh timestamp of the latest call for that name. -/
theorem claim_C1_upsert_invariant (calls : List UpdateCall) :
    ((runUpdates calls).agentResults.map (fun r => r.agentName)).Nodup
    ∧ (runUpdates calls).agentResults.map (fun r => r.agentName)
        = specFirstSeenOrder (calls.map (fun c => c.agentName))
    ∧ ∀ n : String,
        (runUpdates calls).agentResults.find? (fun r => r.agentName == n)
          = ((calls.filter (fun c => c.agentName == n)).getLast?).map newAgentResult := by
  rw [runUpdates_agentResults]
  refine ⟨?_, runUpdateList_names calls, fun n => runUpdateList_find? calls n⟩
  rw [runUpdateList_names]
  exact specFirstSeenOrder_nodup _

/-- Claim C9: updateAgentResult replaces the whole entry rather than merging
fields; after a call that omits the result, the entry for that agent holds
no result payload, whatever payload it held before. -/
theorem claim_C9_replace_not_merge (st : AppState) (name : String) (status : AgentStatus)
    (now : ℕ) (old : AgentResult) (pay : JValue)
    (hfind : st.agentResults.find? (fun r => r.agentName == name) = some old)
    (hold : old.result = some pay) :
    (updateAgentResult name status none now st).agentResults.find? (fun r => r.agentName == name)
      = some { agentName := name, status := status, result := none, timestamp := some now } := by
  rw [updateAgentResult_agentResults, upsertGo_find?]
  rw [if_pos rfl]

/-- Claim C9 witness: the replacement theorem applied to a store holding a
completed symptom entry with a payload. -/
theorem claim_C9_witness :
    c9exState.agentResults.find? (fun r => r.agentName == "symptom") = some c9exOld
    ∧ c9exOld.result = some (.obj [("risk_level", .str "high")])
    ∧ (updateAgentResult "symptom" .running none 5 c9exState).agentResults.find?
        (fun r => r.agentName == "symptom")
      = some { agentName := "symptom", status := .running, result := none, timestamp := some 5 } :=
  ⟨rfl, rfl, claim_C9_replace_not_merge c9exState "symptom" .running 5 c9exOld
    (.obj [("risk_level", .str "high")]) rfl rfl⟩
